import Mathlib

/-
Verification of the adaptive sparse-ID crawl discovery engine of the
recipe-scrapers repository, shallowly embedded from:
  - src/recipe_scrapers/_utils.py   (class StatusCodeLimiter)
  - src/recipe_scrapers/allrecipes.py (AllRecipes._does_recipe_exist,
    AllRecipes.site_urls with its inner get_permalink and
    recipe_id_generator)
Python ints are modelled as Lean Int; the defaultdict(int) frequency table
as a total function Int -> Nat; raising StopIteration out of
StatusCodeLimiter.add versus returning normally is modelled as a Signal
result.
-/

/-- Result of one observe call: normal return of `add` versus the
StopIteration raise (lines 200-202 of _utils.py). -/
inductive Signal
  | Continue
  | Stop
deriving DecidableEq

/-- State of _utils.py's StatusCodeLimiter (lines 151-172): the two
constructor parameters plus the three mutable fields set in __init__.
The logger and the thread lock carry no state relevant to the claims. -/
structure StatusCodeLimiter where
  watch_status_code : Int
  max_consecutive_count : Int
  last_status_code : Option Int
  consecutive_code_count : Int
  all_codes : Int → Nat

/-- StatusCodeLimiter.__init__ (lines 160-172): last code None, consecutive
count 0, empty defaultdict(int). -/
def StatusCodeLimiter.init (watch_status_code max_consecutive_count : Int) :
    StatusCodeLimiter :=
  { watch_status_code := watch_status_code
    max_consecutive_count := max_consecutive_count
    last_status_code := none
    consecutive_code_count := 0
    all_codes := fun _ => 0 }

/-- Value written to consecutive_code_count when the incoming code is the
watched one (lines 184-189): continue the streak if the last code was the
watched one, else restart at 1. -/
def StatusCodeLimiter.nextCount (s : StatusCodeLimiter) : Int :=
  if s.last_status_code = some s.watch_status_code then
    s.consecutive_code_count + 1
  else
    1

/-- The defaultdict update `self.all_codes[code] += 1` (line 208). -/
def StatusCodeLimiter.bump (s : StatusCodeLimiter) (code : Int) : Int → Nat :=
  fun c => if c = code then s.all_codes c + 1 else s.all_codes c

/-- StatusCodeLimiter.add (lines 174-210).  When the incoming code is the
watched one, the consecutive count is continued or restarted at 1; if it
then reaches max_consecutive_count, StopIteration is raised (Signal.Stop)
BEFORE the `self.last_status_code = code` and `self.all_codes[code] += 1`
lines run, so on a Stop the last code and the frequency table are the old
ones.  Any other code resets the count to 0. -/
def StatusCodeLimiter.add (s : StatusCodeLimiter) (code : Int) :
    StatusCodeLimiter × Signal :=
  if code = s.watch_status_code then
    if s.max_consecutive_count ≤ s.nextCount then
      ({ s with consecutive_code_count := s.nextCount }, Signal.Stop)
    else
      ({ s with
          consecutive_code_count := s.nextCount
          last_status_code := some code
          all_codes := s.bump code },
        Signal.Continue)
  else
    ({ s with
        consecutive_code_count := 0
        last_status_code := some code
        all_codes := s.bump code },
      Signal.Continue)

/-- Feeding a list of status codes to `add` one by one, stopping at the
first StopIteration, as the docstring example of StatusCodeLimiter does
(lines 142-148).  Returns the final state and, if a Stop was raised, the
0-based index of the call that raised it. -/
def StatusCodeLimiter.runList (s : StatusCodeLimiter) :
    List Int → StatusCodeLimiter × Option Nat
  | [] => (s, none)
  | c :: rest =>
    if (s.add c).2 = Signal.Stop then
      ((s.add c).1, some 0)
    else
      (((s.add c).1.runList rest).1,
        Option.map (fun n => n + 1) ((s.add c).1.runList rest).2)

/-- Index of the add call on which StopIteration fires, if any. -/
def StatusCodeLimiter.stopIndex (s : StatusCodeLimiter) (cs : List Int) :
    Option Nat :=
  (s.runList cs).2

/-- Spec-side predicate: call number k (0-based) completes a run of N
consecutive occurrences of W in the stream cs, i.e. the last N entries of
the first k+1 entries all equal W. -/
def runEndsAt (W : Int) (N : Nat) (cs : List Int) (k : Nat) : Prop :=
  k < cs.length ∧ List.IsSuffix (List.replicate N W) (cs.take (k + 1))

instance decidableIsSuffixInt : ∀ l1 l2 : List Int, Decidable (List.IsSuffix l1 l2)
  | l1, [] => decidable_of_iff (l1 = []) List.suffix_nil.symm
  | l1, b :: l2 =>
    letI := decidableIsSuffixInt l1 l2
    decidable_of_iff (l1 = b :: l2 ∨ List.IsSuffix l1 l2) List.suffix_cons_iff.symm

instance (W : Int) (N : Nat) (cs : List Int) (k : Nat) :
    Decidable (runEndsAt W N cs k) := by
  unfold runEndsAt
  infer_instance

/-- Generalisation of runEndsAt used in proofs: pre virtual occurrences of
W are prepended before the stream (the streak carried into the suffix). -/
def runCompletedAt (W : Int) (N pre : Nat) (cs : List Int) (k : Nat) : Prop :=
  k < cs.length ∧
    List.IsSuffix (List.replicate N W) (List.replicate pre W ++ cs.take (k + 1))

/-- Proof-side streak automaton: carrying a current streak t of watched
codes, return the index of the first call whose streak reaches N. -/
def firstHit (W : Int) (N : Nat) : Nat → List Int → Option Nat
  | _, [] => none
  | t, c :: rest =>
    if c = W then
      if N ≤ t + 1 then some 0
      else Option.map (fun n => n + 1) (firstHit W N (t + 1) rest)
    else Option.map (fun n => n + 1) (firstHit W N 0 rest)

/-
Model of the crawl machinery of src/recipe_scrapers/allrecipes.py
(AllRecipes._does_recipe_exist, AllRecipes.site_urls and its inner
functions get_permalink and recipe_id_generator, lines 251-332).
-/

/-- Python exceptions relevant to the embedded code paths. -/
inductive PyExc
  | typeError
  | attributeError
  | transportError
deriving DecidableEq

/-- The part of a requests HEAD response read by the code: the status code
and headers.get("Location") (line 295). -/
structure HeadResponse where
  status_code : Int
  location : Option String
deriving DecidableEq

/-- Result of requests.head(uri): a response, or a raised transport
exception (timeout, connection reset, DNS failure). -/
inductive HeadResult
  | response (r : HeadResponse)
  | failure
deriving DecidableEq

/-- urllib3.util.Url as used here: Url(scheme=..., host=..., path=...)
(line 297).  Unset components are None. -/
structure Url where
  scheme : Option String
  host : Option String
  path : Option String
deriving DecidableEq

/-- AllRecipes.URI_FORMAT % recipe_id (lines 44 and 287). -/
def URI_FORMAT_fill (recipe_id : Int) : String :=
  "https://www.allrecipes.com/recipe/" ++ toString recipe_id

/-- AllRecipes._does_recipe_exist with a supplied head response (lines
251-260): an existing recipe is recognised by a 301 redirect. -/
def does_recipe_exist (head_response : HeadResponse) : Bool :=
  head_response.status_code == 301

/-- Observable effect of one get_permalink call: the returned value, the
limiter state afterwards, whether requests.head was issued, and which
exception (if any) the blanket `except Exception` handler on line 307
swallowed. -/
structure ProbeEffect where
  result : Option Url
  limiter : StatusCodeLimiter
  headRequested : Bool
  caught : Option PyExc

/-- get_permalink (lines 279-309), with the network modelled by
`head : Int -> HeadResult` (requests.head of the uri built from the id).
Control flow of the source:
  - line 288: if recipe_check_fn is set and returns True for
    (uri, recipe_id), return None without any network call;
  - line 293: requests.head(uri); a raised transport error is caught by
    the `except Exception` handler (line 307), logged, and None returned;
  - line 294: `if cls.recipe_exists(uri, head_resp)`: the class defines
    `_does_recipe_exist` and the parent class `does_recipe_exist`, but no
    `recipe_exists`, so this attribute lookup raises AttributeError, which
    the same blanket handler catches; neither the exists branch (lines
    295-298) nor the else branch with `code_limiter.add` (line 301) is
    ever reached, and the limiter state is returned unchanged. -/
def get_permalink (recipe_check_fn : Option (String → Int → Bool))
    (head : Int → HeadResult) (code_limiter : StatusCodeLimiter)
    (recipe_id : Int) : ProbeEffect :=
  let uri := URI_FORMAT_fill recipe_id
  if (match recipe_check_fn with
      | some f => f uri recipe_id
      | none => false) then
    { result := none, limiter := code_limiter, headRequested := false, caught := none }
  else
    match head recipe_id with
    | HeadResult.failure =>
      { result := none, limiter := code_limiter, headRequested := true,
        caught := some PyExc.transportError }
    | HeadResult.response _ =>
      { result := none, limiter := code_limiter, headRequested := true,
        caught := some PyExc.attributeError }

/-- Observable outcome of draining the recipe_id_generator: the permalinks
yielded, the final limiter state, and the number of HEAD probes issued. -/
structure CrawlRun where
  emitted : List Url
  limiter : StatusCodeLimiter
  probed : Nat

/-- recipe_id_generator (lines 311-331) drained to the end, modelled with
sequential completion order (one schedule of the pool; the claims
quantify over every crawl).  The pool maps get_permalink over the whole
id range; the consumer loop yields every non-None result.  Its
`except StopIteration` catches only the exhaustion of imap_unordered:
a StopIteration raised by code_limiter.add inside a worker would already
have been swallowed by get_permalink's own `except Exception` handler
(StopIteration subclasses Exception), and that add call is unreachable
anyway, so nothing ever ends the iteration early. -/
def recipe_id_generator_run (recipe_check_fn : Option (String → Int → Bool))
    (head : Int → HeadResult) (code_limiter : StatusCodeLimiter) :
    List Int → CrawlRun
  | [] => { emitted := [], limiter := code_limiter, probed := 0 }
  | id :: rest =>
    let e := get_permalink recipe_check_fn head code_limiter id
    let r := recipe_id_generator_run recipe_check_fn head e.limiter rest
    { emitted :=
        match e.result with
        | some u => u :: r.emitted
        | none => r.emitted
      limiter := r.limiter
      probed := (if e.headRequested then 1 else 0) + r.probed }

/-- Python call binding for StatusCodeLimiter(...) with positional integer
arguments.  __init__ (line 151) requires watch_status_code and
max_consecutive_count; logger is optional (and not an int, so it is not
modelled as a passable positional here — no call site passes it).  Any
other arity raises TypeError at the call. -/
def StatusCodeLimiter.pyNew (pos_args : List Int) :
    Except PyExc StatusCodeLimiter :=
  match pos_args with
  | [watch_status_code, max_consecutive_count] =>
    Except.ok (StatusCodeLimiter.init watch_status_code max_consecutive_count)
  | _ => Except.error PyExc.typeError

/-- np.arange(lower_recipe_id, upper_recipe_id) (line 318). -/
def np_arange (lower upper : Int) : List Int :=
  (List.range (upper - lower).toNat).map (fun i => lower + (i : Int))

/-- AllRecipes.site_urls (lines 262-332).  The body first executes
`code_limiter = StatusCodeLimiter(max_failed_probes)` (line 277) — a call
with a single positional argument — and only then builds and returns the
recipe_id_generator() generator object.  An Except.error result means the
exception is raised at the call itself: no generator is created and no
probe is issued. -/
def site_urls (recipe_check_fn : Option (String → Int → Bool))
    (threadcount : Int) (max_failed_probes : Int)
    (lower_recipe_id upper_recipe_id : Int)
    (head : Int → HeadResult) : Except PyExc CrawlRun :=
  match StatusCodeLimiter.pyNew [max_failed_probes] with
  | Except.error e => Except.error e
  | Except.ok code_limiter =>
    Except.ok (recipe_id_generator_run recipe_check_fn head code_limiter
      (np_arange lower_recipe_id upper_recipe_id))

theorem add_watch_eq (s : StatusCodeLimiter) (c : Int) :
    (s.add c).1.watch_status_code = s.watch_status_code := by
  unfold StatusCodeLimiter.add
  split_ifs <;> rfl

theorem add_max_eq (s : StatusCodeLimiter) (c : Int) :
    (s.add c).1.max_consecutive_count = s.max_consecutive_count := by
  unfold StatusCodeLimiter.add
  split_ifs <;> rfl

theorem add_stop_iff (s : StatusCodeLimiter) (c : Int)
    (hc : c = s.watch_status_code) :
    (s.add c).2 = Signal.Stop ↔ s.max_consecutive_count ≤ s.nextCount := by
  unfold StatusCodeLimiter.add
  rw [if_pos hc]
  by_cases h : s.max_consecutive_count ≤ s.nextCount
  · simp [h]
  · simp [h]

theorem add_signal_of_ne (s : StatusCodeLimiter) (c : Int)
    (hc : ¬c = s.watch_status_code) :
    (s.add c).2 = Signal.Continue := by
  unfold StatusCodeLimiter.add
  rw [if_neg hc]

theorem add_state_watch_stop (s : StatusCodeLimiter) (c : Int)
    (hc : c = s.watch_status_code)
    (h : s.max_consecutive_count ≤ s.nextCount) :
    (s.add c).1 = { s with consecutive_code_count := s.nextCount } := by
  unfold StatusCodeLimiter.add
  rw [if_pos hc, if_pos h]

theorem add_state_watch_continue (s : StatusCodeLimiter) (c : Int)
    (hc : c = s.watch_status_code)
    (h : ¬s.max_consecutive_count ≤ s.nextCount) :
    (s.add c).1 = { s with
      consecutive_code_count := s.nextCount
      last_status_code := some c
      all_codes := s.bump c } := by
  unfold StatusCodeLimiter.add
  rw [if_pos hc, if_neg h]

theorem add_state_of_ne (s : StatusCodeLimiter) (c : Int)
    (hc : ¬c = s.watch_status_code) :
    (s.add c).1 = { s with
      consecutive_code_count := 0
      last_status_code := some c
      all_codes := s.bump c } := by
  unfold StatusCodeLimiter.add
  rw [if_neg hc]

theorem map_add_one_eq_some_succ_iff (o : Option Nat) (k : Nat) :
    Option.map (fun n => n + 1) o = some (k + 1) ↔ o = some k := by
  cases o <;> simp

theorem map_add_one_ne_some_zero (o : Option Nat) :
    Option.map (fun n => n + 1) o ≠ some 0 := by
  cases o <;> simp

theorem suffix_of_append_cons :
    ∀ (z t q : List Int) (a W : Int) (N : Nat), a ≠ W →
      t ++ List.replicate (N + 1) W = z ++ a :: q →
      List.IsSuffix (List.replicate (N + 1) W) q := by
  intro z
  induction z with
  | nil =>
    intro t q a W N ha heq
    simp only [List.nil_append] at heq
    cases t with
    | nil =>
      rw [List.nil_append, List.replicate_succ] at heq
      injection heq with h1 h2
      exact absurd h1.symm ha
    | cons x t' =>
      rw [List.cons_append] at heq
      injection heq with h1 h2
      exact ⟨t', h2⟩
  | cons b z' ih =>
    intro t q a W N ha heq
    cases t with
    | nil =>
      rw [List.nil_append] at heq
      have hmem : a ∈ List.replicate (N + 1) W := by
        rw [heq]
        exact List.mem_cons_of_mem _ (List.mem_append_right _ (List.mem_cons_self a q))
      exact absurd (List.eq_of_mem_replicate hmem) ha
    | cons x t' =>
      rw [List.cons_append, List.cons_append] at heq
      injection heq with h1 h2
      exact ih t' q a W N ha h2

theorem replicate_suffix_iff (a : Int) (m n : Nat) :
    List.IsSuffix (List.replicate m a) (List.replicate n a) ↔ m ≤ n := by
  constructor
  · rintro ⟨t, ht⟩
    have hlen := congrArg List.length ht
    simp only [List.length_append, List.length_replicate] at hlen
    omega
  · intro h
    refine ⟨List.replicate (n - m) a, ?_⟩
    rw [← List.replicate_add]
    congr 1
    omega

theorem not_replicate_suffix_append_single (l : List Int) (a b : Int) (N : Nat)
    (hb : b ≠ a) : ¬List.IsSuffix (List.replicate (N + 1) a) (l ++ [b]) := by
  rintro ⟨t, ht⟩
  rcases suffix_of_append_cons l t [] b a N hb ht with ⟨t', ht'⟩
  have := congrArg List.length ht'
  simp only [List.length_append, List.length_replicate, List.length_nil] at this
  omega

theorem replicate_suffix_append_cons_iff (z q : List Int) (a W : Int) (N : Nat)
    (ha : a ≠ W) :
    List.IsSuffix (List.replicate (N + 1) W) (z ++ a :: q) ↔
      List.IsSuffix (List.replicate (N + 1) W) q := by
  constructor
  · rintro ⟨t, ht⟩
    exact suffix_of_append_cons z t q a W N ha ht
  · rintro ⟨t, ht⟩
    refine ⟨z ++ a :: t, ?_⟩
    rw [List.append_assoc, List.cons_append, ht]

theorem runCompletedAt_zero_cons (W c : Int) (N t : Nat) (rest : List Int)
    (hN : 1 ≤ N) :
    runCompletedAt W N t (c :: rest) 0 ↔ (c = W ∧ N ≤ t + 1) := by
  obtain ⟨m, rfl⟩ : ∃ m, N = m + 1 := ⟨N - 1, by omega⟩
  unfold runCompletedAt
  rw [List.take_succ_cons, List.take_zero]
  constructor
  · rintro ⟨-, hsuf⟩
    by_cases hc : c = W
    · subst hc
      rw [← List.replicate_succ'] at hsuf
      exact ⟨rfl, (replicate_suffix_iff ..).mp hsuf⟩
    · exact absurd hsuf (not_replicate_suffix_append_single _ _ _ _ hc)
  · rintro ⟨rfl, hle⟩
    refine ⟨Nat.succ_pos _, ?_⟩
    rw [← List.replicate_succ']
    exact (replicate_suffix_iff ..).mpr hle

theorem runCompletedAt_succ_cons (W c : Int) (N t k : Nat) (rest : List Int)
    (hN : 1 ≤ N) :
    runCompletedAt W N t (c :: rest) (k + 1) ↔
      runCompletedAt W N (if c = W then t + 1 else 0) rest k := by
  obtain ⟨m, rfl⟩ : ∃ m, N = m + 1 := ⟨N - 1, by omega⟩
  unfold runCompletedAt
  rw [List.take_succ_cons]
  by_cases hc : c = W
  · subst hc
    rw [if_pos rfl]
    have harr : List.replicate t c ++ c :: List.take (k + 1) rest =
        List.replicate (t + 1) c ++ List.take (k + 1) rest := by
      rw [List.replicate_succ', List.append_assoc, List.singleton_append]
    rw [harr]
    simp only [List.length_cons]
    constructor
    · rintro ⟨h1, h2⟩; exact ⟨by omega, h2⟩
    · rintro ⟨h1, h2⟩; exact ⟨by omega, h2⟩
  · rw [if_neg hc]
    rw [replicate_suffix_append_cons_iff _ _ _ _ _ hc]
    simp only [List.replicate_zero, List.nil_append, List.length_cons]
    constructor
    · rintro ⟨h1, h2⟩; exact ⟨by omega, h2⟩
    · rintro ⟨h1, h2⟩; exact ⟨by omega, h2⟩

theorem forall_lt_succ_iff (P : Nat → Prop) (k : Nat) :
    (∀ j, j < k + 1 → P j) ↔ (P 0 ∧ ∀ j, j < k → P (j + 1)) := by
  constructor
  · intro h
    exact ⟨h 0 (Nat.succ_pos _), fun j hj => h (j + 1) (by omega)⟩
  · rintro ⟨h0, hs⟩ j hj
    cases j with
    | zero => exact h0
    | succ j' => exact hs j' (by omega)

theorem firstHit_eq_some_iff :
    ∀ (cs : List Int) (W : Int) (N t k : Nat), 1 ≤ N →
      (firstHit W N t cs = some k ↔
        (runCompletedAt W N t cs k ∧ ∀ j, j < k → ¬runCompletedAt W N t cs j)) := by
  intro cs
  induction cs with
  | nil =>
    intro W N t k hN
    simp [firstHit, runCompletedAt]
  | cons c rest ih =>
    intro W N t k hN
    unfold firstHit
    by_cases hc : c = W
    · rw [if_pos hc]
      by_cases hstop : N ≤ t + 1
      · rw [if_pos hstop]
        cases k with
        | zero =>
          constructor
          · intro _
            exact ⟨(runCompletedAt_zero_cons W c N t rest hN).mpr ⟨hc, hstop⟩,
              fun j hj => absurd hj (by omega)⟩
          · intro _; rfl
        | succ k' =>
          constructor
          · intro h
            exact absurd (Option.some.injEq .. ▸ h) (by omega)
          · rintro ⟨-, hmin⟩
            exact absurd ((runCompletedAt_zero_cons W c N t rest hN).mpr ⟨hc, hstop⟩)
              (hmin 0 (Nat.succ_pos _))
      · rw [if_neg hstop]
        cases k with
        | zero =>
          constructor
          · intro h
            exact absurd h (map_add_one_ne_some_zero _)
          · rintro ⟨h0, -⟩
            exact absurd ((runCompletedAt_zero_cons W c N t rest hN).mp h0).2 hstop
        | succ k' =>
          rw [map_add_one_eq_some_succ_iff, ih W N (t + 1) k' hN]
          have hshift : ∀ j, runCompletedAt W N t (c :: rest) (j + 1) ↔
              runCompletedAt W N (t + 1) rest j := by
            intro j
            rw [runCompletedAt_succ_cons W c N t j rest hN, if_pos hc]
          constructor
          · rintro ⟨hrun, hmin⟩
            refine ⟨(hshift k').mpr hrun, ?_⟩
            rw [forall_lt_succ_iff]
            refine ⟨?_, fun j hj => ?_⟩
            · intro h0
              exact hstop ((runCompletedAt_zero_cons W c N t rest hN).mp h0).2
            · intro hx
              exact hmin j hj ((hshift j).mp hx)
          · rintro ⟨hrun, hmin⟩
            rw [forall_lt_succ_iff] at hmin
            exact ⟨(hshift k').mp hrun, fun j hj hx => hmin.2 j hj ((hshift j).mpr hx)⟩
    · rw [if_neg hc]
      have hzero : ¬runCompletedAt W N t (c :: rest) 0 := by
        intro h0
        exact hc ((runCompletedAt_zero_cons W c N t rest hN).mp h0).1
      have hshift : ∀ j, runCompletedAt W N t (c :: rest) (j + 1) ↔
          runCompletedAt W N 0 rest j := by
        intro j
        rw [runCompletedAt_succ_cons W c N t j rest hN, if_neg hc]
      cases k with
      | zero =>
        constructor
        · intro h
          exact absurd h (map_add_one_ne_some_zero _)
        · rintro ⟨h0, -⟩
          exact absurd h0 hzero
      | succ k' =>
        rw [map_add_one_eq_some_succ_iff, ih W N 0 k' hN]
        constructor
        · rintro ⟨hrun, hmin⟩
          refine ⟨(hshift k').mpr hrun, ?_⟩
          rw [forall_lt_succ_iff]
          exact ⟨hzero, fun j hj hx => hmin j hj ((hshift j).mp hx)⟩
        · rintro ⟨hrun, hmin⟩
          rw [forall_lt_succ_iff] at hmin
          exact ⟨(hshift k').mp hrun, fun j hj hx => hmin.2 j hj ((hshift j).mpr hx)⟩

theorem stopIndex_eq_firstHit :
    ∀ (cs : List Int) (s : StatusCodeLimiter) (W : Int) (N t : Nat),
      s.watch_status_code = W →
      s.max_consecutive_count = (N : Int) →
      s.consecutive_code_count = (t : Int) →
      (s.last_status_code = some W ↔ t ≠ 0) →
      s.stopIndex cs = firstHit W N t cs := by
  intro cs
  induction cs with
  | nil => intro s W N t h1 h2 h3 h4; rfl
  | cons c rest ih =>
    intro s W N t h1 h2 h3 h4
    unfold StatusCodeLimiter.stopIndex StatusCodeLimiter.runList
    unfold firstHit
    by_cases hc : c = W
    · have hcw : c = s.watch_status_code := by rw [h1]; exact hc
      have hnext : s.nextCount = (t : Int) + 1 := by
        unfold StatusCodeLimiter.nextCount
        by_cases hl : s.last_status_code = some s.watch_status_code
        · rw [if_pos hl, h3]
        · have ht0 : t = 0 := by
            by_contra h
            exact hl (by rw [h1]; exact h4.mpr h)
          rw [if_neg hl, ht0]
          norm_num
      rw [if_pos hc]
      by_cases hstop : N ≤ t + 1
      · have hstopI : s.max_consecutive_count ≤ s.nextCount := by
          rw [h2, hnext]
          exact_mod_cast hstop
        have hsig : (s.add c).2 = Signal.Stop := (add_stop_iff s c hcw).mpr hstopI
        rw [if_pos hsig, if_pos hstop]
      · have hnostopI : ¬s.max_consecutive_count ≤ s.nextCount := by
          rw [h2, hnext]
          intro hx
          exact hstop (by exact_mod_cast hx)
        have hsig : ¬(s.add c).2 = Signal.Stop := by
          rw [add_stop_iff s c hcw]
          exact hnostopI
        have hstate := add_state_watch_continue s c hcw hnostopI
        rw [if_neg hsig, if_neg hstop]
        have ihx := ih (s.add c).1 W N (t + 1)
          (by rw [hstate, h1])
          (by rw [hstate]; exact h2)
          (by rw [hstate, hnext]; push_cast; ring)
          (by
            rw [hstate]
            constructor
            · intro _; exact Nat.succ_ne_zero t
            · intro _
              show some c = some W
              rw [hc])
        unfold StatusCodeLimiter.stopIndex at ihx
        rw [ihx]
    · rw [if_neg hc]
      have hcw : ¬c = s.watch_status_code := by rw [h1]; exact hc
      have hsig : ¬(s.add c).2 = Signal.Stop := by
        rw [add_signal_of_ne s c hcw]
        intro hx
        exact Signal.noConfusion hx
      have hstate := add_state_of_ne s c hcw
      rw [if_neg hsig]
      have ihx := ih (s.add c).1 W N 0
        (by rw [hstate, h1])
        (by rw [hstate]; exact h2)
        (by rw [hstate]; rfl)
        (by
          rw [hstate]
          constructor
          · intro hx
            injection hx with hx'
            exact absurd hx' hc
          · intro hx
            exact absurd rfl hx)
      unfold StatusCodeLimiter.stopIndex at ihx
      rw [ihx]

theorem runCompletedAt_zero_pre (W : Int) (N : Nat) (cs : List Int) (k : Nat) :
    runCompletedAt W N 0 cs k ↔ runEndsAt W N cs k := by
  unfold runCompletedAt runEndsAt
  rw [List.replicate_zero, List.nil_append]

theorem stopIndex_init_eq_firstHit (W : Int) (N : Nat) (cs : List Int) :
    (StatusCodeLimiter.init W (N : Int)).stopIndex cs = firstHit W N 0 cs := by
  refine stopIndex_eq_firstHit cs _ W N 0 rfl rfl rfl ?_
  constructor
  · intro hx
    exact Option.noConfusion hx
  · intro hx
    exact absurd rfl hx

/-- C1: for every finite sequence of integer status codes fed via
successive add calls to a freshly constructed StatusCodeLimiter with
watched code W and threshold N >= 1, StopIteration is raised exactly on
the call that completes the first unbroken run of N consecutive
occurrences of W (the last N of the first k+1 codes all equal W) and
never on any earlier call. -/
theorem C1_stop_iff_first_run (W : Int) (N : Nat) (hN : 1 ≤ N)
    (cs : List Int) (k : Nat) :
    (StatusCodeLimiter.init W (N : Int)).stopIndex cs = some k ↔
      (runEndsAt W N cs k ∧ ∀ j, j < k → ¬runEndsAt W N cs j) := by
  rw [stopIndex_init_eq_firstHit, firstHit_eq_some_iff cs W N 0 k hN]
  constructor
  · rintro ⟨h1, h2⟩
    exact ⟨(runCompletedAt_zero_pre W N cs k).mp h1,
      fun j hj hx => h2 j hj ((runCompletedAt_zero_pre W N cs j).mpr hx)⟩
  · rintro ⟨h1, h2⟩
    exact ⟨(runCompletedAt_zero_pre W N cs k).mpr h1,
      fun j hj hx => h2 j hj ((runCompletedAt_zero_pre W N cs j).mp hx)⟩

/-- C1 witness: with W = 404 and N = 4, the stream 404,404,404,404 stops
on call index 3, which completes the first run of 4 consecutive 404s. -/
theorem C1_stop_iff_first_run_witness :
    (StatusCodeLimiter.init 404 ((4 : Nat) : Int)).stopIndex
      [404, 404, 404, 404] = some 3 :=
  (C1_stop_iff_first_run 404 4 (by decide) [404, 404, 404, 404] 3).mpr (by decide)

theorem signal_eq_continue_of_ne_stop (g : Signal) (h : g ≠ Signal.Stop) :
    g = Signal.Continue := by
  cases g
  · rfl
  · exact absurd rfl h

theorem add_all_codes_le (s : StatusCodeLimiter) (c d : Int) :
    s.all_codes d ≤ (s.add c).1.all_codes d := by
  unfold StatusCodeLimiter.add
  split_ifs
  · exact le_refl _
  · show s.all_codes d ≤ s.bump c d
    unfold StatusCodeLimiter.bump
    split_ifs <;> omega
  · show s.all_codes d ≤ s.bump c d
    unfold StatusCodeLimiter.bump
    split_ifs <;> omega

theorem runList_all_codes_le (cs : List Int) (s : StatusCodeLimiter) (d : Int) :
    s.all_codes d ≤ (s.runList cs).1.all_codes d := by
  induction cs generalizing s with
  | nil => exact le_refl _
  | cons c rest ih =>
    unfold StatusCodeLimiter.runList
    split_ifs
    · exact add_all_codes_le s c d
    · exact le_trans (add_all_codes_le s c d) (ih (s.add c).1)

theorem add_continue_effects (s : StatusCodeLimiter) (c : Int)
    (h : (s.add c).2 = Signal.Continue) :
    (s.add c).1.all_codes c = s.all_codes c + 1 ∧
      (∀ d, d ≠ c → (s.add c).1.all_codes d = s.all_codes d) ∧
      (s.add c).1.last_status_code = some c := by
  unfold StatusCodeLimiter.add at h ⊢
  split_ifs at h ⊢
  · refine ⟨?_, ?_, rfl⟩
    · show s.bump c c = s.all_codes c + 1
      unfold StatusCodeLimiter.bump
      rw [if_pos rfl]
    · intro d hd
      show s.bump c d = s.all_codes d
      unfold StatusCodeLimiter.bump
      rw [if_neg hd]
  · refine ⟨?_, ?_, rfl⟩
    · show s.bump c c = s.all_codes c + 1
      unfold StatusCodeLimiter.bump
      rw [if_pos rfl]
    · intro d hd
      show s.bump c d = s.all_codes d
      unfold StatusCodeLimiter.bump
      rw [if_neg hd]

theorem add_stop_effects (s : StatusCodeLimiter) (c : Int)
    (h : (s.add c).2 = Signal.Stop) :
    (s.add c).1.all_codes = s.all_codes ∧
      (s.add c).1.last_status_code = s.last_status_code := by
  unfold StatusCodeLimiter.add at h ⊢
  split_ifs at h ⊢
  exact ⟨rfl, rfl⟩

/-- C5 counterexample: with watch code 404 and threshold 1, a fresh
limiter fed 404 raises StopIteration on that very call, but the frequency
table entry for 404 is still 0 and last_status_code is still None — the
raise on line 200 happens before lines 207-208 run, so the firing call
does not increment the frequency table nor set the last code. -/
theorem C5_stop_call_skips_bookkeeping_counterexample :
    ((StatusCodeLimiter.init 404 1).add 404).2 = Signal.Stop ∧
      ((StatusCodeLimiter.init 404 1).add 404).1.all_codes 404 = 0 ∧
      ((StatusCodeLimiter.init 404 1).add 404).1.last_status_code = none := by
  decide

/-- C5 amended: on every add call that returns normally (Continue), the
frequency entry of the incoming code is incremented by exactly 1, all
other entries are unchanged, and last_status_code is set to the code; on
the call that raises StopIteration neither the frequency table nor
last_status_code is updated; frequency entries never decrease, either per
call or across any run — they are never reset. -/
theorem C5_bookkeeping_amended (s : StatusCodeLimiter) (c : Int) :
    ((s.add c).2 = Signal.Continue →
        (s.add c).1.all_codes c = s.all_codes c + 1 ∧
        (∀ d, d ≠ c → (s.add c).1.all_codes d = s.all_codes d) ∧
        (s.add c).1.last_status_code = some c) ∧
      ((s.add c).2 = Signal.Stop →
        (s.add c).1.all_codes = s.all_codes ∧
        (s.add c).1.last_status_code = s.last_status_code) ∧
      (∀ d, s.all_codes d ≤ (s.add c).1.all_codes d) ∧
      (∀ (cs : List Int) (d : Int), s.all_codes d ≤ (s.runList cs).1.all_codes d) :=
  ⟨fun h => add_continue_effects s c h,
    fun h => add_stop_effects s c h,
    fun d => add_all_codes_le s c d,
    fun cs d => runList_all_codes_le cs s d⟩

/-- C5 amended witness: a fresh limiter (watch 404, threshold 3) fed 200
returns Continue and records exactly one observation of 200. -/
theorem C5_bookkeeping_amended_witness :
    ((StatusCodeLimiter.init 404 3).add 200).1.all_codes 200 =
      (StatusCodeLimiter.init 404 3).all_codes 200 + 1 :=
  ((C5_bookkeeping_amended (StatusCodeLimiter.init 404 3) 200).1 (by decide)).1

theorem runList_watch_eq (cs : List Int) (s : StatusCodeLimiter) :
    (s.runList cs).1.watch_status_code = s.watch_status_code := by
  induction cs generalizing s with
  | nil => rfl
  | cons c rest ih =>
    unfold StatusCodeLimiter.runList
    split_ifs
    · exact add_watch_eq s c
    · exact (ih (s.add c).1).trans (add_watch_eq s c)

theorem runList_last_no_stop (cs : List Int) (s : StatusCodeLimiter)
    (h : (s.runList cs).2 = none) (hne : cs ≠ []) :
    (s.runList cs).1.last_status_code = cs.getLast? := by
  induction cs generalizing s with
  | nil => exact absurd rfl hne
  | cons c rest ih =>
    unfold StatusCodeLimiter.runList at h ⊢
    split_ifs at h ⊢ with hsig
    have hcont := signal_eq_continue_of_ne_stop _ hsig
    have h2 : ((s.add c).1.runList rest).2 = none := by
      rcases hx : ((s.add c).1.runList rest).2 with _ | v
      · rfl
      · rw [hx] at h
        exact absurd h (by simp)
    cases rest with
    | nil =>
      show (s.add c).1.last_status_code = (c :: []).getLast?
      rw [(add_continue_effects s c hcont).2.2]
      rfl
    | cons c2 rest2 =>
      rw [ih (s.add c).1 h2 (by simp)]
      rfl

theorem add_count_watch (s : StatusCodeLimiter) (c : Int)
    (hc : c = s.watch_status_code) :
    (s.add c).1.consecutive_code_count = s.nextCount := by
  unfold StatusCodeLimiter.add
  rw [if_pos hc]
  split_ifs <;> rfl

theorem add_count_ne (s : StatusCodeLimiter) (c : Int)
    (hc : ¬c = s.watch_status_code) :
    (s.add c).1.consecutive_code_count = 0 := by
  unfold StatusCodeLimiter.add
  rw [if_neg hc]

/-- C6: invariant of every add call on a state reached by a stop-free run
from a fresh limiter: an incoming watched code whose predecessor was also
the watched code increments consecutive_code_count by 1; an incoming
watched code with no predecessor or a different predecessor sets it to
exactly 1; any non-watched code sets it to exactly 0.  (The count is
written before the StopIteration check, so this holds whether or not the
call fires Stop.) -/
theorem C6_consecutive_count_invariant (W N : Int) (cs : List Int) (c : Int)
    (hns : (StatusCodeLimiter.init W N).stopIndex cs = none) :
    ((c = W ∧ cs.getLast? = some W) →
        (((StatusCodeLimiter.init W N).runList cs).1.add c).1.consecutive_code_count =
          ((StatusCodeLimiter.init W N).runList cs).1.consecutive_code_count + 1) ∧
      ((c = W ∧ cs.getLast? ≠ some W) →
        (((StatusCodeLimiter.init W N).runList cs).1.add c).1.consecutive_code_count = 1) ∧
      (c ≠ W →
        (((StatusCodeLimiter.init W N).runList cs).1.add c).1.consecutive_code_count = 0) := by
  have hwatch : ((StatusCodeLimiter.init W N).runList cs).1.watch_status_code = W :=
    runList_watch_eq cs _
  refine ⟨?_, ?_, ?_⟩
  · rintro ⟨rfl, hlast⟩
    have hne : cs ≠ [] := by
      intro hnil
      rw [hnil] at hlast
      exact Option.noConfusion hlast
    have hl : ((StatusCodeLimiter.init c N).runList cs).1.last_status_code = some c := by
      rw [runList_last_no_stop cs _ hns hne]
      exact hlast
    rw [add_count_watch _ c hwatch.symm]
    unfold StatusCodeLimiter.nextCount
    rw [if_pos (by rw [hwatch, hl])]
  · rintro ⟨rfl, hlast⟩
    rw [add_count_watch _ c hwatch.symm]
    unfold StatusCodeLimiter.nextCount
    rcases hcs : cs with _ | ⟨c2, rest⟩
    · rw [if_neg]
      show ¬((StatusCodeLimiter.init c N).runList []).1.last_status_code = _
      intro hx
      exact Option.noConfusion hx
    · rw [if_neg]
      rw [← hcs]
      rw [runList_last_no_stop cs _ hns (by rw [hcs]; simp), hwatch]
      exact hlast
  · intro hc
    exact add_count_ne _ c (by rw [hwatch]; exact hc)

/-- C6 witness: after the stop-free run 404 on a fresh limiter
(watch 404, threshold 5), observing 404 again increments the consecutive
count by exactly 1. -/
theorem C6_consecutive_count_invariant_witness :
    (((StatusCodeLimiter.init 404 5).runList [404]).1.add 404).1.consecutive_code_count =
      ((StatusCodeLimiter.init 404 5).runList [404]).1.consecutive_code_count + 1 :=
  (C6_consecutive_count_invariant 404 5 [404] 404 (by decide)).1 ⟨rfl, by decide⟩

theorem get_permalink_none_eq (head : Int → HeadResult)
    (lim : StatusCodeLimiter) (recipe_id : Int) :
    get_permalink none head lim recipe_id =
      match head recipe_id with
      | HeadResult.failure =>
        { result := none, limiter := lim, headRequested := true,
          caught := some PyExc.transportError }
      | HeadResult.response _ =>
        { result := none, limiter := lim, headRequested := true,
          caught := some PyExc.attributeError } := rfl

/-- C2 code evaluation: whatever the network returns and whatever the
limiter's configuration and state, the drained generator issues a HEAD
probe for every identifier of the range, emits nothing, and leaves the
Termination Monitor's state untouched — the monitor can never signal Stop
(the `code_limiter.add` call is unreachable behind the failing
`cls.recipe_exists` lookup, and a raised StopIteration would in any case
be swallowed by get_permalink's blanket `except Exception`), so dispatch
is never halted early. -/
theorem C2_scheduler_never_halts (head : Int → HeadResult)
    (lim : StatusCodeLimiter) (ids : List Int) :
    recipe_id_generator_run none head lim ids =
      { emitted := [], limiter := lim, probed := ids.length } := by
  induction ids generalizing lim with
  | nil => rfl
  | cons id rest ih =>
    show recipe_id_generator_run none head lim (id :: rest) = _
    unfold recipe_id_generator_run
    rw [get_permalink_none_eq]
    cases head id with
    | failure =>
      dsimp only
      rw [ih lim]
      simp [Nat.add_comm]
    | response r =>
      dsimp only
      rw [ih lim]
      simp [Nat.add_comm]

/-- C3: every invocation of AllRecipes.site_urls raises TypeError at the
call itself, whatever the arguments and whatever the network would
answer: line 277 executes StatusCodeLimiter(max_failed_probes), a call
with one positional argument, while StatusCodeLimiter.__init__ requires
both watch_status_code and max_consecutive_count.  The error return means
the generator is never created and no probe is issued. -/
theorem C3_site_urls_always_typeerror
    (recipe_check_fn : Option (String → Int → Bool)) (threadcount : Int)
    (max_failed_probes lower_recipe_id upper_recipe_id : Int)
    (head : Int → HeadResult) :
    site_urls recipe_check_fn threadcount max_failed_probes lower_recipe_id
      upper_recipe_id head = Except.error PyExc.typeError := rfl

/-- C10: a crawl invocation configured with max_failed_probes <= 0 or
threadcount < 1 raises an error at crawl construction time, before any
network activity (the Except.error return precedes generator creation and
carries no CrawlRun, so no probe was issued). -/
theorem C10_misconfig_fails_fast
    (recipe_check_fn : Option (String → Int → Bool)) (threadcount : Int)
    (max_failed_probes lower_recipe_id upper_recipe_id : Int)
    (head : Int → HeadResult)
    (hbad : max_failed_probes ≤ 0 ∨ threadcount < 1) :
    site_urls recipe_check_fn threadcount max_failed_probes lower_recipe_id
      upper_recipe_id head = Except.error PyExc.typeError := rfl

/-- C10 witness: max_failed_probes = 0 (with the default threadcount 4 and
default id range) errors at construction. -/
theorem C10_misconfig_fails_fast_witness :
    site_urls none 4 0 6663 300000 (fun _ => HeadResult.failure) =
      Except.error PyExc.typeError :=
  C10_misconfig_fails_fast none 4 0 6663 300000 (fun _ => HeadResult.failure)
    (Or.inl (by norm_num))

/-- C4 code evaluation: recipe id 6663 whose HEAD response is a 301 with a
Location header is classified as existing by the site rule, yet
get_permalink returns None — the `cls.recipe_exists` attribute lookup on
line 294 raises AttributeError (the class defines `_does_recipe_exist`,
its parent `does_recipe_exist`), the blanket handler swallows it, and no
permalink is emitted.  The limiter is untouched (the claim's frame part
holds, but only because the whole classification step is dead). -/
theorem C4_exists_probe_emits_nothing :
    does_recipe_exist { status_code := 301, location := some "/recipe/6663/name/" } = true ∧
      get_permalink none
        (fun _ => HeadResult.response
          { status_code := 301, location := some "/recipe/6663/name/" })
        (StatusCodeLimiter.init 404 250) 6663 =
      { result := none, limiter := StatusCodeLimiter.init 404 250,
        headRequested := true, caught := some PyExc.attributeError } :=
  ⟨rfl, rfl⟩

/-- C7: when the caller-supplied exclusion predicate returns true for the
identifier's uri, get_permalink returns before the network call: no HEAD
request is issued and the limiter object is returned unchanged (same
consecutive count, last code and frequency table). -/
theorem C7_skip_frame (f : String → Int → Bool) (head : Int → HeadResult)
    (lim : StatusCodeLimiter) (recipe_id : Int)
    (hskip : f (URI_FORMAT_fill recipe_id) recipe_id = true) :
    get_permalink (some f) head lim recipe_id =
      { result := none, limiter := lim, headRequested := false,
        caught := none } := by
  unfold get_permalink
  dsimp only
  rw [if_pos hskip]

/-- C7 witness: a predicate that always skips yields the untouched fresh
limiter, no HEAD request, no exception. -/
theorem C7_skip_frame_witness :
    get_permalink (some (fun _ _ => true)) (fun _ => HeadResult.failure)
      (StatusCodeLimiter.init 404 250) 6663 =
      { result := none, limiter := StatusCodeLimiter.init 404 250,
        headRequested := false, caught := none } :=
  C7_skip_frame (fun _ _ => true) (fun _ => HeadResult.failure)
    (StatusCodeLimiter.init 404 250) 6663 rfl

/-- C8 counterexample: a probe whose HEAD request raises a transport
failure, run against a fresh limiter, returns None with the limiter still
exactly the fresh one — no sentinel status code is translated into the
frequency table (the 404 entry, like every other, is still 0), refuting
the claim that the failure is recorded in the Termination Monitor. -/
theorem C8_transport_failure_counterexample :
    get_permalink none (fun _ => HeadResult.failure)
      (StatusCodeLimiter.init 404 250) 6663 =
      { result := none, limiter := StatusCodeLimiter.init 404 250,
        headRequested := true, caught := some PyExc.transportError } ∧
      (get_permalink none (fun _ => HeadResult.failure)
        (StatusCodeLimiter.init 404 250) 6663).limiter.all_codes 404 = 0 :=
  ⟨rfl, rfl⟩

/-- C8 amended: a transport failure during a probe is recovered locally —
get_permalink catches the exception, logs it and returns None, so the
failure is never fatal to the crawl — but it is NOT translated into any
sentinel status code: the Termination Monitor is returned unchanged and
nothing is recorded in its frequency table. -/
theorem C8_transport_failure_amended (head : Int → HeadResult)
    (lim : StatusCodeLimiter) (recipe_id : Int)
    (hfail : head recipe_id = HeadResult.failure) :
    get_permalink none head lim recipe_id =
      { result := none, limiter := lim, headRequested := true,
        caught := some PyExc.transportError } := by
  rw [get_permalink_none_eq, hfail]

/-- C8 amended witness: concrete transport failure on recipe id 7. -/
theorem C8_transport_failure_amended_witness :
    get_permalink none (fun _ => HeadResult.failure)
      (StatusCodeLimiter.init 404 3) 7 =
      { result := none, limiter := StatusCodeLimiter.init 404 3,
        headRequested := true, caught := some PyExc.transportError } :=
  C8_transport_failure_amended (fun _ => HeadResult.failure)
    (StatusCodeLimiter.init 404 3) 7 rfl

/-- C9 code evaluation: recipe id 6663 whose HEAD response is a 301 with
no Location header — exists-classified by the site rule but lacking any
usable redirect target.  The claim's permalink-construction rule (lines
295-298, scheme/host of the probed URL plus the Location path) is never
executed: the `cls.recipe_exists` lookup on line 294 raises
AttributeError (the class defines `_does_recipe_exist`, its parent
`does_recipe_exist`), the blanket handler swallows it, and get_permalink
returns None with the limiter untouched.  No probe, with or without a
Location header, ever reaches the resolution logic, so the code neither
treats a missing redirect target as absence nor builds permalinks from
the redirect target as the claim describes. -/
theorem C9_missing_location_probe_emits_nothing :
    does_recipe_exist { status_code := 301, location := none } = true ∧
      get_permalink none
        (fun _ => HeadResult.response { status_code := 301, location := none })
        (StatusCodeLimiter.init 404 250) 6663 =
      { result := none, limiter := StatusCodeLimiter.init 404 250,
        headRequested := true, caught := some PyExc.attributeError } :=
  ⟨rfl, rfl⟩
